import Mathlib

/-!
Verification of the transportation-optimization core of the Cara Logistics
application (src/cara_logistics_app.py).  The Python source is shallowly
embedded: the supply/demand dictionaries become association lists built by
`pyDict`, the PuLP model assembled in the Run Optimization block becomes the
`LPModel` record produced by `buildModel`, and the post-solve reporting code
becomes `buildReport`.  Rationals stand in for the floating-point numbers of
the source.
-/

namespace CaraLogistics

/-- A route is an (origin identifier, destination identifier) pair. -/
abbrev Route := String × String

/-- Direction of a linear constraint, as added by the source: at most
(supply) or at least (demand). -/
inductive Sense
  | le
  | ge
deriving DecidableEq, Repr

/-- One PuLP constraint as built by the source: a unit-coefficient sum of the
variables listed in `vars`, compared with `rhs` in direction `sense`, and
registered under `name` (Supply_ or Demand_ followed by the identifier). -/
structure Constraint where
  vars : List Route
  sense : Sense
  rhs : ℚ
  name : String
deriving DecidableEq, Repr

/-- The LP model assembled in the Run Optimization block (source lines
63-71): minimization, one continuous variable per route with lower bound 0
and no upper bound, a cost-weighted objective and the two constraint
families. -/
structure LPModel where
  objSense : String
  vars : List Route
  lowBound : ℚ
  upBound : Option ℚ
  cat : String
  objective : List (Route × ℚ)
  constraints : List Constraint
deriving DecidableEq, Repr

/-- Failure modes of the embedded pipeline.  `keyError` is the pandas lookup
failure raised by costs.loc on a missing pair.  `malformedProblem` is the
validation error postulated by the specification; the constructor is stated
here so that claims about it can be expressed, and the development shows the
source never produces it. -/
inductive PyError
  | keyError (key : String)
  | malformedProblem
deriving DecidableEq, Repr

/-- One step of Python dict construction: a repeated key updates the stored
value in place, a new key is appended, so insertion order is preserved. -/
def pyDictInsert (acc : List (String × ℚ)) (kv : String × ℚ) : List (String × ℚ) :=
  if acc.any (fun p => decide (p.1 = kv.1)) then
    acc.map (fun p => if p.1 = kv.1 then (p.1, kv.2) else p)
  else
    acc ++ [kv]

/-- dict(zip(keys, values)) from source lines 60-61: a left fold of
insertions, so a duplicated identifier is silently collapsed, keeping the
last value at the first position. -/
def pyDict (l : List (String × ℚ)) : List (String × ℚ) :=
  l.foldl pyDictInsert []

/-- routes = [(s, d) for s in supply for d in demand] (source line 64). -/
def routesOf (sup dem : List (String × ℚ)) : List Route :=
  (sup.map (fun p => dem.map (fun q => (p.1, q.1)))).flatten

/-- costs.loc[s, d] on an association-list cost matrix; a missing pair
raises KeyError, as the pandas lookup does. -/
def lookupCost (cl : List (Route × ℚ)) (r : Route) : Except PyError ℚ :=
  match cl.find? (fun p => decide (p.1 = r)) with
  | some p => .ok p.2
  | none => .error (.keyError (r.1 ++ "," ++ r.2))

/-- The total function describing what a successful cost lookup returned. -/
def costOf (cl : List (Route × ℚ)) (s d : String) : ℚ :=
  ((cl.find? (fun p => decide (p.1 = (s, d)))).map Prod.snd).getD 0

/-- Source lines 63-71 applied to the two dictionaries: variables with
lowBound 0, cat Continuous, no upper bound; objective
lpSum of x[(s,d)] * costs.loc[s,d]; one at-most constraint per origin named
Supply_s; one at-least constraint per destination named Demand_d. -/
def formulate (sup dem : List (String × ℚ)) (c : String → String → ℚ) : LPModel :=
  { objSense := "Minimize"
    vars := routesOf sup dem
    lowBound := 0
    upBound := none
    cat := "Continuous"
    objective := (routesOf sup dem).map (fun r => (r, c r.1 r.2))
    constraints :=
      sup.map (fun p => { vars := dem.map (fun q => (p.1, q.1)), sense := Sense.le,
                          rhs := p.2, name := "Supply_" ++ p.1 })
        ++ dem.map (fun q => { vars := sup.map (fun p => (p.1, q.1)), sense := Sense.ge,
                               rhs := q.2, name := "Demand_" ++ q.1 }) }

/-- Evaluation of the objective comprehension on source line 66: looks up
every route's cost, propagating the first KeyError. -/
def evalObjectiveTerms (cl : List (Route × ℚ)) : List Route → Except PyError (List (Route × ℚ))
  | [] => .ok []
  | r :: rs =>
    match lookupCost cl r with
    | .error e => .error e
    | .ok c =>
      match evalObjectiveTerms cl rs with
      | .error e => .error e
      | .ok rest => .ok ((r, c) :: rest)

/-- The whole model-building part of the Run Optimization block (source
lines 60-71): dict construction, route enumeration, objective evaluation
(which can raise KeyError on a missing cost) and the two constraint
families.  No validation of any kind happens before the model is built. -/
def buildModel (supply demand : List (String × ℚ)) (cl : List (Route × ℚ)) :
    Except PyError LPModel :=
  let sup := pyDict supply
  let dem := pyDict demand
  match evalObjectiveTerms cl (routesOf sup dem) with
  | .error e => .error e
  | .ok obj =>
    .ok { objSense := "Minimize"
          vars := routesOf sup dem
          lowBound := 0
          upBound := none
          cat := "Continuous"
          objective := obj
          constraints :=
            sup.map (fun p => { vars := dem.map (fun q => (p.1, q.1)), sense := Sense.le,
                                rhs := p.2, name := "Supply_" ++ p.1 })
              ++ dem.map (fun q => { vars := sup.map (fun p => (p.1, q.1)), sense := Sense.ge,
                                     rhs := q.2, name := "Demand_" ++ q.1 }) }

/-- Value of a unit-coefficient sum of variables under an assignment. -/
def evalSum (x : Route → ℚ) (vs : List Route) : ℚ :=
  (vs.map x).sum

/-- An assignment satisfies a constraint. -/
def Constraint.Sat (x : Route → ℚ) (c : Constraint) : Prop :=
  match c.sense with
  | Sense.le => evalSum x c.vars ≤ c.rhs
  | Sense.ge => c.rhs ≤ evalSum x c.vars

/-- An assignment is feasible for a model: it respects the variable bounds
and every constraint. -/
def LPModel.Feasible (m : LPModel) (x : Route → ℚ) : Prop :=
  (∀ r ∈ m.vars, m.lowBound ≤ x r) ∧
  (∀ r ∈ m.vars, ∀ u ∈ m.upBound, x r ≤ u) ∧
  (∀ c ∈ m.constraints, c.Sat x)

/-- Objective value of an assignment (value(model.objective)). -/
def LPModel.objVal (m : LPModel) (x : Route → ℚ) : ℚ :=
  (m.objective.map (fun t => x t.1 * t.2)).sum

/-- An assignment is optimal: feasible and of minimal objective value, which
is what solver status Optimal asserts of the returned variable values. -/
def LPModel.IsOptimal (m : LPModel) (x : Route → ℚ) : Prop :=
  m.Feasible x ∧ ∀ y, m.Feasible y → m.objVal x ≤ m.objVal y

/-- Tons shipped out of origin s: the sum over destinations of x (s, d). -/
def shipOut (x : Route → ℚ) (dem : List (String × ℚ)) (s : String) : ℚ :=
  (dem.map (fun q => x (s, q.1))).sum

/-- Tons shipped into destination d: the sum over origins of x (s, d). -/
def shipIn (x : Route → ℚ) (sup : List (String × ℚ)) (d : String) : ℚ :=
  (sup.map (fun p => x (p.1, d))).sum

/-- Python round-half-to-even of a rational to an integer. -/
def pyRound (q : ℚ) : ℤ :=
  if q - ⌊q⌋ < 1/2 then ⌊q⌋
  else if 1/2 < q - ⌊q⌋ then ⌊q⌋ + 1
  else if Even ⌊q⌋ then ⌊q⌋ else ⌊q⌋ + 1

/-- round(q, 2) from the source line 176: round half to even at the second
decimal place. -/
def round2 (q : ℚ) : ℚ :=
  (pyRound (100 * q) : ℚ) / 100

/-- Source lines 173-176: from the per-constraint dual values, keep the
entries with absolute dual value above 0.0001 and record them rounded to two
decimal places.  The input list pairs each constraint name with its dual. -/
def shadowPrices (cons : List (String × ℚ)) : List (String × ℚ) :=
  (cons.filter (fun p => decide (1/10000 < |p.2|))).map (fun p => (p.1, round2 p.2))

/-- One record of the Flow Breakdown by Route table (source lines 104-113). -/
structure FlowRow where
  fromLoc : String
  toLoc : String
  tons : ℚ
  costPerTon : ℚ
  totalCost : ℚ
deriving DecidableEq, Repr

/-- flow_df from source lines 104-113: one record per route whose variable
value is strictly positive. -/
def flowRows (routes : List Route) (x : Route → ℚ) (c : String → String → ℚ) : List FlowRow :=
  (routes.filter (fun r => decide (0 < x r))).map
    (fun r => { fromLoc := r.1, toLoc := r.2, tons := x r,
                costPerTon := c r.1 r.2, totalCost := x r * c r.1 r.2 })

/-- The dense results table of source lines 75-77: every origin row holds
the shipped tons for every destination (all cells written). -/
def shipmentMatrix (sup dem : List (String × ℚ)) (x : Route → ℚ) :
    List (String × List (String × ℚ)) :=
  sup.map (fun p => (p.1, dem.map (fun q => (q.1, x (p.1, q.1)))))

/-- The PuLP LpStatus dictionary. -/
def lpStatusName (st : Int) : String :=
  if st = 1 then "Optimal"
  else if st = 0 then "Not Solved"
  else if st = -1 then "Infeasible"
  else if st = -2 then "Unbounded"
  else "Undefined"

/-- Everything the post-solve code displays. -/
structure Report where
  matrix : List (String × List (String × ℚ))
  totalCost : ℚ
  rows : List FlowRow
  statusText : String
  shadow : List (String × ℚ)
deriving Repr

/-- The post-solve display code (source lines 75-113 and 172-181), given the
solver status, the variable values and the per-constraint dual values.  The
source computes every field unconditionally, with no branch on the solver
status. -/
def buildReport (sup dem : List (String × ℚ)) (c : String → String → ℚ)
    (routes : List Route) (m : LPModel) (status : Int) (x : Route → ℚ)
    (dual : String → ℚ) : Report :=
  { matrix := shipmentMatrix sup dem x
    totalCost := m.objVal x
    rows := flowRows routes x c
    statusText := lpStatusName status
    shadow := shadowPrices (m.constraints.map (fun con => (con.name, dual con.name))) }

/-- The canonical transportation LP, written from the specification's words
(section 4.2): one continuous decision variable per (origin, destination)
pair with lower bound 0 and no upper bound; objective minimizing the sum of
unit cost times shipped tons over all pairs; for each origin an at-most
capacity constraint over its outgoing pairs; for each destination an
at-least requirement constraint over its incoming pairs. -/
def canonicalTransportationLP (sup dem : List (String × ℚ))
    (c : String → String → ℚ) : LPModel :=
  let origins := sup.map Prod.fst
  let dests := dem.map Prod.fst
  let pairs := (origins.map (fun s => dests.map (fun d => (s, d)))).flatten
  { objSense := "Minimize"
    vars := pairs
    lowBound := 0
    upBound := none
    cat := "Continuous"
    objective := pairs.map (fun r => (r, c r.1 r.2))
    constraints :=
      sup.map (fun p => { vars := dests.map (fun d => (p.1, d)), sense := Sense.le,
                          rhs := p.2, name := "Supply_" ++ p.1 })
        ++ dem.map (fun q => { vars := origins.map (fun s => (s, q.1)), sense := Sense.ge,
                               rhs := q.2, name := "Demand_" ++ q.1 }) }

/-! ### Helper lemmas -/

lemma pyRound_eq_zero {q : ℚ} (h : |q| < 1/2) : pyRound q = 0 := by
  rcases abs_lt.mp h with ⟨h1, h2⟩
  unfold pyRound
  by_cases h0 : 0 ≤ q
  · have hf : ⌊q⌋ = 0 := by rw [Int.floor_eq_zero_iff]; exact ⟨h0, by linarith⟩
    rw [hf]
    rw [if_pos (by push_cast; linarith)]
  · have hf : ⌊q⌋ = -1 := by
      rw [Int.floor_eq_iff]
      constructor <;> push_cast <;> linarith
    rw [hf]
    rw [if_neg (by push_cast; linarith), if_pos (by push_cast; linarith)]
    norm_num

lemma round2_eq_zero {q : ℚ} (h : |q| < 1/200) : round2 q = 0 := by
  unfold round2
  rw [pyRound_eq_zero]
  · norm_num
  · rw [abs_mul, abs_of_nonneg (by norm_num : (0 : ℚ) ≤ 100)]
    linarith

lemma mem_shadowPrices_iff {l : List (String × ℚ)} {n : String} {v : ℚ} :
    (n, v) ∈ shadowPrices l ↔ ∃ d : ℚ, (n, d) ∈ l ∧ 1/10000 < |d| ∧ v = round2 d := by
  unfold shadowPrices
  simp only [List.mem_map, List.mem_filter, decide_eq_true_eq, Prod.mk.injEq]
  constructor
  · rintro ⟨p, ⟨hp, hd⟩, hn, hv⟩
    refine ⟨p.2, ?_, hd, hv.symm⟩
    rw [← hn]
    simpa using hp
  · rintro ⟨d, hd1, hd2, rfl⟩
    exact ⟨(n, d), ⟨hd1, hd2⟩, rfl, rfl⟩

lemma val_eq_of_keys_nodup {l : List (String × ℚ)} (h : (l.map Prod.fst).Nodup)
    {n : String} {a b : ℚ} (ha : (n, a) ∈ l) (hb : (n, b) ∈ l) : a = b := by
  induction l with
  | nil => cases ha
  | cons p t ih =>
    rw [List.map_cons, List.nodup_cons] at h
    rcases List.mem_cons.mp ha with ha1 | ha2
    · rcases List.mem_cons.mp hb with hb1 | hb2
      · rw [← ha1] at hb1
        exact ((Prod.mk.injEq _ _ _ _).mp hb1.symm).2
      · exfalso
        apply h.1
        have hn : n = p.1 := by rw [← ha1]
        rw [← hn]
        exact List.mem_map.mpr ⟨(n, b), hb2, rfl⟩
    · rcases List.mem_cons.mp hb with hb1 | hb2
      · exfalso
        apply h.1
        have hn : n = p.1 := by rw [← hb1]
        rw [← hn]
        exact List.mem_map.mpr ⟨(n, a), ha2, rfl⟩
      · exact ih h.2 ha2 hb2

lemma pyDictInsert_of_not_mem (acc : List (String × ℚ)) (kv : String × ℚ)
    (h : kv.1 ∉ acc.map Prod.fst) : pyDictInsert acc kv = acc ++ [kv] := by
  have hc : acc.any (fun p => decide (p.1 = kv.1)) = false := by
    rw [List.any_eq_false]
    intro p hp
    simp only [decide_eq_true_eq]
    intro hpk
    exact h (List.mem_map.mpr ⟨p, hp, hpk⟩)
  unfold pyDictInsert
  rw [hc]
  simp

lemma foldl_pyDictInsert (l : List (String × ℚ)) :
    ∀ acc : List (String × ℚ), ((acc ++ l).map Prod.fst).Nodup →
      l.foldl pyDictInsert acc = acc ++ l := by
  induction l with
  | nil => intro acc _; simp
  | cons kv t ih =>
    intro acc h
    have h1 : kv.1 ∉ acc.map Prod.fst := by
      intro hmem
      rw [List.map_append] at h
      rcases List.nodup_append.mp h with ⟨_, _, hdisj⟩
      exact hdisj hmem (by simp)
    rw [List.foldl_cons, pyDictInsert_of_not_mem acc kv h1]
    have h2 : (((acc ++ [kv]) ++ t).map Prod.fst).Nodup := by
      rw [List.append_assoc]
      simpa using h
    rw [ih (acc ++ [kv]) h2, List.append_assoc]
    simp

lemma pyDict_eq_self {l : List (String × ℚ)} (h : (l.map Prod.fst).Nodup) :
    pyDict l = l := by
  unfold pyDict
  have := foldl_pyDictInsert l [] (by simpa using h)
  simpa using this

lemma lookupCost_ok {cl : List (Route × ℚ)} {r : Route} {c : ℚ}
    (h : lookupCost cl r = .ok c) : c = costOf cl r.1 r.2 := by
  unfold lookupCost at h
  show c = ((cl.find? (fun p => decide (p.1 = r))).map Prod.snd).getD 0
  cases hf : cl.find? (fun p => decide (p.1 = r)) with
  | none => rw [hf] at h; cases h
  | some p => rw [hf] at h; cases h; rfl

lemma lookupCost_error {cl : List (Route × ℚ)} {r : Route} {e : PyError}
    (h : lookupCost cl r = .error e) : ∃ k, e = PyError.keyError k := by
  unfold lookupCost at h
  cases hf : cl.find? (fun p => decide (p.1 = r)) with
  | none =>
    rw [hf] at h
    cases h
    exact ⟨_, rfl⟩
  | some p => rw [hf] at h; cases h

lemma evalObjectiveTerms_ok {cl : List (Route × ℚ)} :
    ∀ {rs : List Route} {obj : List (Route × ℚ)},
      evalObjectiveTerms cl rs = .ok obj →
        obj = rs.map (fun r => (r, costOf cl r.1 r.2)) := by
  intro rs
  induction rs with
  | nil =>
    intro obj h
    cases h
    rfl
  | cons r rs ih =>
    intro obj h
    unfold evalObjectiveTerms at h
    cases hl : lookupCost cl r with
    | error e => rw [hl] at h; cases h
    | ok c =>
      rw [hl] at h
      cases ht : evalObjectiveTerms cl rs with
      | error e => rw [ht] at h; cases h
      | ok rest =>
        rw [ht] at h
        cases h
        rw [List.map_cons, ← ih ht, lookupCost_ok hl]

lemma evalObjectiveTerms_error {cl : List (Route × ℚ)} :
    ∀ {rs : List Route} {e : PyError},
      evalObjectiveTerms cl rs = .error e → ∃ k, e = PyError.keyError k := by
  intro rs
  induction rs with
  | nil => intro e h; cases h
  | cons r rs ih =>
    intro e h
    unfold evalObjectiveTerms at h
    cases hl : lookupCost cl r with
    | error e2 =>
      rw [hl] at h
      cases h
      exact lookupCost_error hl
    | ok c =>
      rw [hl] at h
      cases ht : evalObjectiveTerms cl rs with
      | error e2 =>
        rw [ht] at h
        cases h
        exact ih ht
      | ok rest => rw [ht] at h; cases h

lemma buildModel_ok {supply demand : List (String × ℚ)} {cl : List (Route × ℚ)} {m : LPModel}
    (h : buildModel supply demand cl = .ok m) :
    m = formulate (pyDict supply) (pyDict demand) (costOf cl) := by
  simp only [buildModel] at h
  cases ht : evalObjectiveTerms cl (routesOf (pyDict supply) (pyDict demand)) with
  | error e => rw [ht] at h; cases h
  | ok obj =>
    rw [ht] at h
    cases h
    unfold formulate
    rw [evalObjectiveTerms_ok ht]

lemma buildModel_error {supply demand : List (String × ℚ)} {cl : List (Route × ℚ)} {e : PyError}
    (h : buildModel supply demand cl = .error e) : ∃ k, e = PyError.keyError k := by
  simp only [buildModel] at h
  cases ht : evalObjectiveTerms cl (routesOf (pyDict supply) (pyDict demand)) with
  | error e2 =>
    rw [ht] at h
    cases h
    exact evalObjectiveTerms_error ht
  | ok obj => rw [ht] at h; cases h

lemma formulate_eq_canonical (sup dem : List (String × ℚ)) (c : String → String → ℚ) :
    formulate sup dem c = canonicalTransportationLP sup dem c := by
  unfold formulate canonicalTransportationLP routesOf
  simp only [List.map_map]
  rfl

/-! ### Claim C1 -/

/-- Claim C1: for a well-formed input (no duplicated identifiers), the model
assembled by the Run Optimization block is exactly the canonical
transportation LP of the specification: one continuous variable per
(origin, destination) pair with lower bound 0 and no upper bound, the
cost-weighted minimization objective over all pairs, one at-most capacity
constraint per origin and one at-least requirement constraint per
destination. -/
theorem model_is_canonical_transportation_lp
    (supply demand : List (String × ℚ)) (cl : List (Route × ℚ)) (m : LPModel)
    (hs : (supply.map Prod.fst).Nodup) (hd : (demand.map Prod.fst).Nodup)
    (hm : buildModel supply demand cl = .ok m) :
    m = canonicalTransportationLP supply demand (costOf cl) := by
  rw [buildModel_ok hm, pyDict_eq_self hs, pyDict_eq_self hd, formulate_eq_canonical]

/-- Claim C1 witness on a one-origin, one-destination instance. -/
theorem model_is_canonical_transportation_lp_witness :
    (([("A", (150 : ℚ))].map Prod.fst).Nodup ∧ ([("W", (140 : ℚ))].map Prod.fst).Nodup ∧
      buildModel [("A", 150)] [("W", 140)] [(("A", "W"), 500)] =
        .ok (canonicalTransportationLP [("A", 150)] [("W", 140)] (costOf [(("A", "W"), 500)]))) ∧
    canonicalTransportationLP [("A", 150)] [("W", 140)] (costOf [(("A", "W"), 500)]) =
      canonicalTransportationLP [("A", 150)] [("W", 140)] (costOf [(("A", "W"), 500)]) :=
  ⟨⟨by simp, by simp, by rfl⟩,
    model_is_canonical_transportation_lp [("A", 150)] [("W", 140)] [(("A", "W"), 500)] _
      (by simp) (by simp) (by rfl)⟩

/-! ### Claim C2 -/

/-- Claim C2 counterexample: with the malformed input of a negative capacity
(origin A with capacity -5), the pipeline raises nothing: it builds the
model, with the negative capacity standing unclamped as the supply bound,
and proceeds to the solve.  No MalformedProblem error is produced. -/
theorem negative_capacity_not_rejected :
    buildModel [("A", -5)] [("W", 3)] [(("A", "W"), 2)] =
      Except.ok
        { objSense := "Minimize", vars := [("A", "W")], lowBound := 0, upBound := none,
          cat := "Continuous", objective := [(("A", "W"), 2)],
          constraints :=
            [{ vars := [("A", "W")], sense := Sense.le, rhs := -5, name := "Supply_A" },
             { vars := [("A", "W")], sense := Sense.ge, rhs := 3, name := "Demand_W" }] } := by
  rfl

/-- Claim C2 (amended): the Run Optimization block performs no input
validation at all.  Building the model either succeeds (whatever the signs
of the numbers or the multiplicity of the identifiers) or fails with the
pandas KeyError for a missing cost entry; a MalformedProblem error is never
produced, and a duplicated identifier is silently coerced by dict
construction, keeping the last value. -/
theorem no_validation_before_solve :
    (∀ supply demand : List (String × ℚ), ∀ cl : List (Route × ℚ),
      (∃ m, buildModel supply demand cl = .ok m) ∨
        (∃ k, buildModel supply demand cl = .error (PyError.keyError k))) ∧
    pyDict [("A", 5), ("A", 7)] = [("A", 7)] := by
  constructor
  · intro supply demand cl
    cases h : buildModel supply demand cl with
    | ok m => exact Or.inl ⟨m, rfl⟩
    | error e =>
      obtain ⟨k, rfl⟩ := buildModel_error h
      exact Or.inr ⟨k, rfl⟩
  · rfl

lemma sum_map_sum_comm {α β : Type} (l1 : List α) (l2 : List β) (f : α → β → ℚ) :
    (l1.map (fun a => (l2.map (fun b => f a b)).sum)).sum
      = (l2.map (fun b => (l1.map (fun a => f a b)).sum)).sum := by
  induction l1 with
  | nil => simp
  | cons a t ih =>
    simp only [List.map_cons, List.sum_cons, ih]
    rw [← List.sum_map_add]

lemma feasible_formulate_iff (sup dem : List (String × ℚ)) (c : String → String → ℚ)
    (x : Route → ℚ) :
    (formulate sup dem c).Feasible x ↔
      (∀ r ∈ routesOf sup dem, 0 ≤ x r) ∧
      (∀ p ∈ sup, shipOut x dem p.1 ≤ p.2) ∧
      (∀ q ∈ dem, q.2 ≤ shipIn x sup q.1) := by
  unfold LPModel.Feasible formulate Constraint.Sat evalSum shipOut shipIn
  simp only [List.forall_mem_append, List.forall_mem_map, List.map_map, Function.comp]
  constructor
  · rintro ⟨h1, -, h3, h4⟩
    exact ⟨h1, h3, h4⟩
  · rintro ⟨h1, h3, h4⟩
    refine ⟨h1, ?_, h3, h4⟩
    intro r _ u hu
    cases hu

lemma objVal_formulate (sup dem : List (String × ℚ)) (c : String → String → ℚ)
    (x : Route → ℚ) :
    (formulate sup dem c).objVal x
      = ((routesOf sup dem).map (fun r => x r * c r.1 r.2)).sum := by
  unfold LPModel.objVal formulate
  rw [List.map_map]
  rfl

/-! ### Claim C3 -/

/-- Claim C3 (amended): when the total requirement exceeds the total
capacity, the formulated LP has no feasible point at all, which is what the
solver's INFEASIBLE status reports; however the displayed result does not
then carry only the status and a message: the report's shipment matrix,
total cost and route rows are computed identically for every solver status,
with no branch on it. -/
theorem infeasible_when_demand_exceeds_supply
    (sup dem : List (String × ℚ)) (c : String → String → ℚ)
    (h : (sup.map Prod.snd).sum < (dem.map Prod.snd).sum) :
    (¬ ∃ x, (formulate sup dem c).Feasible x) ∧
    (∀ st₁ st₂ : Int, ∀ x : Route → ℚ, ∀ dual : String → ℚ, ∀ routes : List Route,
      (buildReport sup dem c routes (formulate sup dem c) st₁ x dual).matrix =
        (buildReport sup dem c routes (formulate sup dem c) st₂ x dual).matrix ∧
      (buildReport sup dem c routes (formulate sup dem c) st₁ x dual).totalCost =
        (buildReport sup dem c routes (formulate sup dem c) st₂ x dual).totalCost ∧
      (buildReport sup dem c routes (formulate sup dem c) st₁ x dual).rows =
        (buildReport sup dem c routes (formulate sup dem c) st₂ x dual).rows) := by
  constructor
  · rintro ⟨x, hx⟩
    obtain ⟨-, hsupc, hdemc⟩ := (feasible_formulate_iff sup dem c x).mp hx
    have h1 : (sup.map (fun p => shipOut x dem p.1)).sum ≤ (sup.map Prod.snd).sum :=
      List.sum_le_sum (fun p hp => hsupc p hp)
    have h2 : (dem.map Prod.snd).sum ≤ (dem.map (fun q => shipIn x sup q.1)).sum :=
      List.sum_le_sum (fun q hq => hdemc q hq)
    have h3 : (sup.map (fun p => shipOut x dem p.1)).sum
        = (dem.map (fun q => shipIn x sup q.1)).sum := by
      unfold shipOut shipIn
      exact sum_map_sum_comm sup dem (fun p q => x (p.1, q.1))
    linarith
  · intro st₁ st₂ x dual routes
    exact ⟨rfl, rfl, rfl⟩

/-- Claim C3 witness: with one origin of capacity 1 and one destination
requiring 2, the formulated LP is infeasible. -/
theorem infeasible_when_demand_exceeds_supply_witness :
    (([("A", (1 : ℚ))].map Prod.snd).sum < ([("W", (2 : ℚ))].map Prod.snd).sum) ∧
    ¬ ∃ x, (formulate [("A", (1 : ℚ))] [("W", (2 : ℚ))] (fun _ _ => 5)).Feasible x :=
  ⟨by norm_num,
    (infeasible_when_demand_exceeds_supply [("A", 1)] [("W", 2)] (fun _ _ => 5)
      (by norm_num)).1⟩

/-- Claim C3 counterexample: on the infeasible instance with capacity 1 and
requirement 2, the report rendered at solver status Infeasible still carries
the full shipment matrix, the total cost and the route rows, not only the
status and a diagnostic message. -/
theorem infeasible_report_still_carries_plan :
    (buildReport [("A", 1)] [("W", 2)] (fun _ _ => 5) [("A", "W")]
        (formulate [("A", 1)] [("W", 2)] (fun _ _ => 5)) (-1) (fun _ => 2)
        (fun _ => 0)).statusText = "Infeasible" ∧
    (buildReport [("A", 1)] [("W", 2)] (fun _ _ => 5) [("A", "W")]
        (formulate [("A", 1)] [("W", 2)] (fun _ _ => 5)) (-1) (fun _ => 2)
        (fun _ => 0)).matrix = [("A", [("W", 2)])] ∧
    (buildReport [("A", 1)] [("W", 2)] (fun _ _ => 5) [("A", "W")]
        (formulate [("A", 1)] [("W", 2)] (fun _ _ => 5)) (-1) (fun _ => 2)
        (fun _ => 0)).totalCost = 10 ∧
    (buildReport [("A", 1)] [("W", 2)] (fun _ _ => 5) [("A", "W")]
        (formulate [("A", 1)] [("W", 2)] (fun _ _ => 5)) (-1) (fun _ => 2)
        (fun _ => 0)).rows =
      [{ fromLoc := "A", toLoc := "W", tons := 2, costPerTon := 5, totalCost := 2 * 5 }] := by
  refine ⟨rfl, rfl, ?_, ?_⟩
  · show (formulate [("A", 1)] [("W", 2)] (fun _ _ => 5)).objVal (fun _ => 2) = 10
    norm_num [objVal_formulate, routesOf]
  · show flowRows [("A", "W")] (fun _ => 2) (fun _ _ => 5) = _
    simp [flowRows, List.filter]

/-! ### Claim C4 -/

/-- Claim C4: a plan that is optimal for the formulated LP satisfies every
supply constraint within the 0.000001 tolerance (in fact exactly) and every
demand constraint within the same tolerance. -/
theorem optimal_plan_respects_constraints
    (sup dem : List (String × ℚ)) (c : String → String → ℚ) (x : Route → ℚ)
    (hx : (formulate sup dem c).IsOptimal x) :
    (∀ p ∈ sup, shipOut x dem p.1 ≤ p.2 + 1/1000000) ∧
    (∀ q ∈ dem, q.2 - 1/1000000 ≤ shipIn x sup q.1) := by
  obtain ⟨-, hsupc, hdemc⟩ := (feasible_formulate_iff sup dem c x).mp hx.1
  constructor
  · intro p hp
    linarith [hsupc p hp]
  · intro q hq
    linarith [hdemc q hq]

lemma isOptimal_unit_instance (c0 : ℚ) (h : 0 ≤ c0) :
    (formulate [("A", 1)] [("W", 1)] (fun _ _ => c0)).IsOptimal (fun _ => 1) := by
  constructor
  · rw [feasible_formulate_iff]
    refine ⟨fun r _ => by norm_num, ?_, ?_⟩
    · intro p hp
      simp only [List.mem_singleton] at hp
      subst hp
      simp [shipOut]
    · intro q hq
      simp only [List.mem_singleton] at hq
      subst hq
      simp [shipIn]
  · intro y hy
    obtain ⟨-, -, hdemc⟩ := (feasible_formulate_iff _ _ _ y).mp hy
    have h1 : (1 : ℚ) ≤ y ("A", "W") := by
      have := hdemc ("W", 1) (by simp)
      simpa [shipIn] using this
    rw [objVal_formulate, objVal_formulate]
    simp only [routesOf, List.map_cons, List.map_nil, List.flatten, List.sum_cons,
      List.sum_nil, List.append_nil]
    nlinarith

/-- Claim C4 witness on the one-origin, one-destination instance with unit
capacity, requirement and cost, where shipping one ton is optimal. -/
theorem optimal_plan_respects_constraints_witness :
    (formulate [("A", 1)] [("W", 1)] (fun _ _ => (1 : ℚ))).IsOptimal (fun _ => 1) ∧
    (∀ p ∈ [("A", (1 : ℚ))], shipOut (fun _ => 1) [("W", (1 : ℚ))] p.1 ≤ p.2 + 1/1000000) :=
  ⟨isOptimal_unit_instance 1 (by norm_num),
    (optimal_plan_respects_constraints [("A", 1)] [("W", 1)] (fun _ _ => 1) (fun _ => 1)
      (isOptimal_unit_instance 1 (by norm_num))).1⟩

/-! ### Claim C5 -/

lemma sum_filter_pos (rs : List Route) (x : Route → ℚ) (f : Route → ℚ)
    (h : ∀ r ∈ rs, 0 ≤ x r) :
    ((rs.filter (fun r => decide (0 < x r))).map (fun r => x r * f r)).sum
      = (rs.map (fun r => x r * f r)).sum := by
  induction rs with
  | nil => simp
  | cons r t ih =>
    have ht : ∀ r' ∈ t, 0 ≤ x r' := fun r' hr' => h r' (List.mem_cons_of_mem _ hr')
    by_cases h0 : 0 < x r
    · rw [List.filter_cons_of_pos (by simpa using h0)]
      simp only [List.map_cons, List.sum_cons, ih ht]
    · rw [List.filter_cons_of_neg (by simpa using h0)]
      have hx0 : x r = 0 := le_antisymm (not_lt.mp h0) (h r (List.mem_cons_self r t))
      simp only [List.map_cons, List.sum_cons, ih ht, hx0, zero_mul, zero_add]

/-- Claim C5: for an optimal plan, the displayed total cost is the LP
objective value, and that value equals the sum of the line costs of the
reported routes exactly (hence within the 0.000001 solver tolerance). -/
theorem total_cost_equals_sum_of_line_costs
    (sup dem : List (String × ℚ)) (c : String → String → ℚ) (x : Route → ℚ)
    (st : Int) (dual : String → ℚ)
    (hx : (formulate sup dem c).IsOptimal x) :
    (buildReport sup dem c (routesOf sup dem) (formulate sup dem c) st x dual).totalCost
      = (formulate sup dem c).objVal x ∧
    (formulate sup dem c).objVal x
      = ((flowRows (routesOf sup dem) x c).map FlowRow.totalCost).sum := by
  refine ⟨rfl, ?_⟩
  obtain ⟨hnn, -, -⟩ := (feasible_formulate_iff sup dem c x).mp hx.1
  rw [objVal_formulate]
  unfold flowRows
  rw [List.map_map]
  exact (sum_filter_pos _ x (fun r => c r.1 r.2) hnn).symm

/-- Claim C5 witness on the one-origin, one-destination unit instance. -/
theorem total_cost_equals_sum_of_line_costs_witness :
    (formulate [("A", 1)] [("W", 1)] (fun _ _ => (1 : ℚ))).IsOptimal (fun _ => 1) ∧
    (formulate [("A", 1)] [("W", 1)] (fun _ _ => (1 : ℚ))).objVal (fun _ => 1)
      = ((flowRows (routesOf [("A", 1)] [("W", 1)]) (fun _ => 1)
            (fun _ _ => (1 : ℚ))).map FlowRow.totalCost).sum :=
  ⟨isOptimal_unit_instance 1 (by norm_num),
    (total_cost_equals_sum_of_line_costs [("A", 1)] [("W", 1)] (fun _ _ => 1) (fun _ => 1)
      1 (fun _ => 0) (isOptimal_unit_instance 1 (by norm_num))).2⟩

/-! ### Claim C6 -/

lemma forall₂_fst_eq {l l' : List (String × ℚ)}
    (h : List.Forall₂ (fun p q => p.1 = q.1 ∧ p.2 ≤ q.2) l l') :
    l.map Prod.fst = l'.map Prod.fst := by
  induction h with
  | nil => rfl
  | cons hpq _ ih => simp [ih, hpq.1]

lemma forall₂_mem_right {α β : Type} {R : α → β → Prop} {l : List α} {l' : List β}
    (h : List.Forall₂ R l l') {b : β} (hb : b ∈ l') : ∃ a ∈ l, R a b := by
  induction h with
  | nil => cases hb
  | cons hpq _ ih =>
    rcases List.mem_cons.mp hb with rfl | hb2
    · exact ⟨_, List.mem_cons_self _ _, hpq⟩
    · obtain ⟨a, ha, hr⟩ := ih hb2
      exact ⟨a, List.mem_cons_of_mem _ ha, hr⟩

lemma forall₂_mem_left {α β : Type} {R : α → β → Prop} {l : List α} {l' : List β}
    (h : List.Forall₂ R l l') {a : α} (ha : a ∈ l) : ∃ b ∈ l', R a b := by
  induction h with
  | nil => cases ha
  | cons hpq _ ih =>
    rcases List.mem_cons.mp ha with rfl | ha2
    · exact ⟨_, List.mem_cons_self _ _, hpq⟩
    · obtain ⟨b, hb, hr⟩ := ih ha2
      exact ⟨b, List.mem_cons_of_mem _ hb, hr⟩

lemma routesOf_congr_left {sup sup' dem : List (String × ℚ)}
    (h : sup.map Prod.fst = sup'.map Prod.fst) :
    routesOf sup dem = routesOf sup' dem := by
  have e1 : sup.map (fun p => dem.map (fun q => (p.1, q.1)))
      = (sup.map Prod.fst).map (fun s => dem.map (fun q => (s, q.1))) := by
    rw [List.map_map]
    rfl
  have e2 : sup'.map (fun p => dem.map (fun q => (p.1, q.1)))
      = (sup'.map Prod.fst).map (fun s => dem.map (fun q => (s, q.1))) := by
    rw [List.map_map]
    rfl
  unfold routesOf
  rw [e1, e2, h]

lemma routesOf_congr_right {sup dem dem' : List (String × ℚ)}
    (h : dem.map Prod.fst = dem'.map Prod.fst) :
    routesOf sup dem = routesOf sup dem' := by
  unfold routesOf
  congr 1
  apply List.map_congr_left
  intro p _
  have e1 : dem.map (fun q => (p.1, q.1)) = (dem.map Prod.fst).map (fun d => (p.1, d)) := by
    rw [List.map_map]
    rfl
  have e2 : dem'.map (fun q => (p.1, q.1)) = (dem'.map Prod.fst).map (fun d => (p.1, d)) := by
    rw [List.map_map]
    rfl
  rw [e1, e2, h]

lemma shipOut_congr {dem dem' : List (String × ℚ)} (h : dem.map Prod.fst = dem'.map Prod.fst)
    (x : Route → ℚ) (s : String) : shipOut x dem s = shipOut x dem' s := by
  unfold shipOut
  have e1 : dem.map (fun q => x (s, q.1)) = (dem.map Prod.fst).map (fun d => x (s, d)) := by
    rw [List.map_map]
    rfl
  have e2 : dem'.map (fun q => x (s, q.1)) = (dem'.map Prod.fst).map (fun d => x (s, d)) := by
    rw [List.map_map]
    rfl
  rw [e1, e2, h]

lemma shipIn_congr {sup sup' : List (String × ℚ)} (h : sup.map Prod.fst = sup'.map Prod.fst)
    (x : Route → ℚ) (d : String) : shipIn x sup d = shipIn x sup' d := by
  unfold shipIn
  have e1 : sup.map (fun p => x (p.1, d)) = (sup.map Prod.fst).map (fun s => x (s, d)) := by
    rw [List.map_map]
    rfl
  have e2 : sup'.map (fun p => x (p.1, d)) = (sup'.map Prod.fst).map (fun s => x (s, d)) := by
    rw [List.map_map]
    rfl
  rw [e1, e2, h]

lemma objVal_congr_left {sup sup' dem : List (String × ℚ)} {c : String → String → ℚ}
    (h : sup.map Prod.fst = sup'.map Prod.fst) (x : Route → ℚ) :
    (formulate sup dem c).objVal x = (formulate sup' dem c).objVal x := by
  rw [objVal_formulate, objVal_formulate, routesOf_congr_left h]

lemma objVal_congr_right {sup dem dem' : List (String × ℚ)} {c : String → String → ℚ}
    (h : dem.map Prod.fst = dem'.map Prod.fst) (x : Route → ℚ) :
    (formulate sup dem c).objVal x = (formulate sup dem' c).objVal x := by
  rw [objVal_formulate, objVal_formulate, routesOf_congr_right h]

lemma feasible_of_supply_relaxed {sup sup' dem : List (String × ℚ)}
    {c : String → String → ℚ} {x : Route → ℚ}
    (hss : List.Forall₂ (fun p q => p.1 = q.1 ∧ p.2 ≤ q.2) sup sup')
    (hx : (formulate sup dem c).Feasible x) :
    (formulate sup' dem c).Feasible x := by
  rw [feasible_formulate_iff] at hx ⊢
  have hkeys := forall₂_fst_eq hss
  obtain ⟨hnn, hsupc, hdemc⟩ := hx
  refine ⟨?_, ?_, ?_⟩
  · rw [← routesOf_congr_left hkeys]
    exact hnn
  · intro p' hp'
    obtain ⟨p, hp, h1, h2⟩ := forall₂_mem_right hss hp'
    calc shipOut x dem p'.1 = shipOut x dem p.1 := by rw [h1]
      _ ≤ p.2 := hsupc p hp
      _ ≤ p'.2 := h2
  · intro q hq
    rw [← shipIn_congr hkeys]
    exact hdemc q hq

lemma feasible_of_demand_tightened {sup dem dem' : List (String × ℚ)}
    {c : String → String → ℚ} {x : Route → ℚ}
    (hdd : List.Forall₂ (fun p q => p.1 = q.1 ∧ p.2 ≤ q.2) dem dem')
    (hx : (formulate sup dem' c).Feasible x) :
    (formulate sup dem c).Feasible x := by
  rw [feasible_formulate_iff] at hx ⊢
  have hkeys := forall₂_fst_eq hdd
  obtain ⟨hnn, hsupc, hdemc⟩ := hx
  refine ⟨?_, ?_, ?_⟩
  · rw [routesOf_congr_right hkeys]
    exact hnn
  · intro p hp
    rw [shipOut_congr hkeys]
    exact hsupc p hp
  · intro q hq
    obtain ⟨q', hq', h1, h2⟩ := forall₂_mem_left hdd hq
    calc q.2 ≤ q'.2 := h2
      _ ≤ shipIn x sup q'.1 := hdemc q' hq'
      _ = shipIn x sup q.1 := by rw [h1]

/-- Claim C6: the shadow-price sign convention, in the marginal sense the
specification defines shadow prices by.  Relaxing any origin capacities
(pointwise larger, same identifiers) can only lower the optimal total cost,
so every supply constraint's marginal price is at most 0; tightening any
destination requirements can only raise it, so every demand constraint's
marginal price is at least 0. -/
theorem shadow_price_signs
    (sup sup' dem dem' : List (String × ℚ)) (c : String → String → ℚ)
    (x x' y' : Route → ℚ)
    (hs : List.Forall₂ (fun p q => p.1 = q.1 ∧ p.2 ≤ q.2) sup sup')
    (hd : List.Forall₂ (fun p q => p.1 = q.1 ∧ p.2 ≤ q.2) dem dem')
    (hx : (formulate sup dem c).IsOptimal x)
    (hx' : (formulate sup' dem c).IsOptimal x')
    (hy' : (formulate sup dem' c).IsOptimal y') :
    (formulate sup' dem c).objVal x' ≤ (formulate sup dem c).objVal x ∧
    (formulate sup dem c).objVal x ≤ (formulate sup dem' c).objVal y' := by
  constructor
  · have hfeas : (formulate sup' dem c).Feasible x := feasible_of_supply_relaxed hs hx.1
    have h1 := hx'.2 x hfeas
    rwa [← objVal_congr_left (forall₂_fst_eq hs) x] at h1
  · have hfeas : (formulate sup dem c).Feasible y' := feasible_of_demand_tightened hd hy'.1
    have h1 := hx.2 y' hfeas
    rwa [objVal_congr_right (forall₂_fst_eq hd) y'] at h1

/-- Claim C6 witness: the unit instance compared with itself (capacities and
requirements relaxed by zero), where the marginal inequalities hold with
equality. -/
theorem shadow_price_signs_witness :
    ((formulate [("A", 1)] [("W", 1)] (fun _ _ => (1 : ℚ))).IsOptimal (fun _ => 1) ∧
      List.Forall₂ (fun p q : String × ℚ => p.1 = q.1 ∧ p.2 ≤ q.2) [("A", 1)] [("A", 1)]) ∧
    (formulate [("A", 1)] [("W", 1)] (fun _ _ => (1 : ℚ))).objVal (fun _ => 1) ≤
      (formulate [("A", 1)] [("W", 1)] (fun _ _ => (1 : ℚ))).objVal (fun _ => 1) :=
  ⟨⟨isOptimal_unit_instance 1 (by norm_num),
      List.Forall₂.cons ⟨rfl, le_refl _⟩ List.Forall₂.nil⟩,
    (shadow_price_signs [("A", 1)] [("A", 1)] [("W", 1)] [("W", 1)] (fun _ _ => 1)
      (fun _ => 1) (fun _ => 1) (fun _ => 1)
      (List.Forall₂.cons ⟨rfl, le_refl _⟩ List.Forall₂.nil)
      (List.Forall₂.cons ⟨rfl, le_refl _⟩ List.Forall₂.nil)
      (isOptimal_unit_instance 1 (by norm_num))
      (isOptimal_unit_instance 1 (by norm_num))
      (isOptimal_unit_instance 1 (by norm_num))).1⟩

/-! ### Claim C8 -/

lemma feasible_cost_irrelevant (sup dem : List (String × ℚ))
    (c c' : String → String → ℚ) (x : Route → ℚ) :
    (formulate sup dem c).Feasible x ↔ (formulate sup dem c').Feasible x := by
  rw [feasible_formulate_iff, feasible_formulate_iff]

lemma objVal_formulate_scale (sup dem : List (String × ℚ)) (c : String → String → ℚ)
    (k : ℚ) (x : Route → ℚ) :
    (formulate sup dem (fun s d => k * c s d)).objVal x
      = k * (formulate sup dem c).objVal x := by
  rw [objVal_formulate, objVal_formulate]
  rw [show (fun r : Route => x r * (k * c r.1 r.2)) = fun r : Route => k * (x r * c r.1 r.2) from
    by funext r; ring]
  exact List.sum_map_mul_left _ _ _

/-- Claim C8: scaling every unit cost by a positive constant k scales the
optimal objective value by exactly k, and the original optimal plan stays
optimal for the scaled problem, so an optimal plan with the same support
exists. -/
theorem cost_scaling_invariance
    (sup dem : List (String × ℚ)) (c : String → String → ℚ) (k : ℚ)
    (x y : Route → ℚ) (hk : 0 < k)
    (hx : (formulate sup dem c).IsOptimal x)
    (hy : (formulate sup dem (fun s d => k * c s d)).IsOptimal y) :
    (formulate sup dem (fun s d => k * c s d)).objVal y
        = k * (formulate sup dem c).objVal x ∧
    (formulate sup dem (fun s d => k * c s d)).IsOptimal x := by
  have hxfeas : (formulate sup dem (fun s d => k * c s d)).Feasible x :=
    (feasible_cost_irrelevant sup dem c _ x).mp hx.1
  have hxopt : (formulate sup dem (fun s d => k * c s d)).IsOptimal x := by
    refine ⟨hxfeas, ?_⟩
    intro z hz
    rw [objVal_formulate_scale, objVal_formulate_scale]
    have hzfeas : (formulate sup dem c).Feasible z :=
      (feasible_cost_irrelevant sup dem _ c z).mp hz
    exact mul_le_mul_of_nonneg_left (hx.2 z hzfeas) hk.le
  refine ⟨?_, hxopt⟩
  have h1 := hy.2 x hxfeas
  have h2 := hxopt.2 y hy.1
  rw [le_antisymm h1 h2, objVal_formulate_scale]

/-- Claim C8 witness on the unit instance with k = 2. -/
theorem cost_scaling_invariance_witness :
    ((0 : ℚ) < 2 ∧
      (formulate [("A", 1)] [("W", 1)] (fun _ _ => (1 : ℚ))).IsOptimal (fun _ => 1)) ∧
    (formulate [("A", 1)] [("W", 1)]
        (fun s d => (2 : ℚ) * (fun _ _ => (1 : ℚ)) s d)).objVal (fun _ => 1)
      = 2 * (formulate [("A", 1)] [("W", 1)] (fun _ _ => (1 : ℚ))).objVal (fun _ => 1) :=
  ⟨⟨by norm_num, isOptimal_unit_instance 1 (by norm_num)⟩,
    (cost_scaling_invariance [("A", 1)] [("W", 1)] (fun _ _ => 1) 2 (fun _ => 1) (fun _ => 1)
      (by norm_num) (isOptimal_unit_instance 1 (by norm_num))
      (isOptimal_unit_instance (2 * 1) (by norm_num))).1⟩

/-! ### Claim C7 -/

/-- Claim C7: with distinct constraint names, a constraint appears in the
binding-constraint map exactly when the magnitude of its dual value exceeds
the 0.0001 threshold; any other constraint is absent from the map, not
present with value zero. -/
theorem binding_map_membership (l : List (String × ℚ)) (n : String) (d : ℚ)
    (hnd : (l.map Prod.fst).Nodup) (hmem : (n, d) ∈ l) :
    (∃ v, (n, v) ∈ shadowPrices l) ↔ 1/10000 < |d| := by
  constructor
  · rintro ⟨v, hv⟩
    obtain ⟨d', hd1, hd2, _⟩ := mem_shadowPrices_iff.mp hv
    rwa [val_eq_of_keys_nodup hnd hmem hd1]
  · intro ht
    exact ⟨round2 d, mem_shadowPrices_iff.mpr ⟨d, hmem, ht, rfl⟩⟩

/-- Claim C7 witness: on the list pairing Supply_A with dual -500 and
Demand_W with dual 0.00005, the origin constraint is in the map and the
threshold test decides membership. -/
theorem binding_map_membership_witness :
    ((([("Supply_A", (-500 : ℚ)), ("Demand_W", 1/20000)]).map Prod.fst).Nodup ∧
      ("Supply_A", (-500 : ℚ)) ∈ [("Supply_A", (-500 : ℚ)), ("Demand_W", 1/20000)]) ∧
    ((∃ v, ("Supply_A", v) ∈ shadowPrices [("Supply_A", (-500 : ℚ)), ("Demand_W", 1/20000)]) ↔
      1/10000 < |(-500 : ℚ)|) :=
  ⟨⟨by simp, by simp⟩,
    binding_map_membership _ "Supply_A" (-500) (by simp) (by simp)⟩

/-! ### Claim C9 -/

/-- Claim C9 counterexample: a route shipping 0.0000005 tons, strictly below
the claimed epsilon of 0.000001, still yields a record in the route
breakdown, because the source filters on varValue > 0. -/
theorem flow_rows_below_epsilon_reported :
    flowRows [("A", "W")] (fun _ => 1/2000000) (fun _ _ => 5) =
      [{ fromLoc := "A", toLoc := "W", tons := 1/2000000,
         costPerTon := 5, totalCost := 1/2000000 * 5 }] ∧
    (1/2000000 : ℚ) < 1/1000000 := by
  constructor
  · simp [flowRows, List.filter]
  · norm_num

/-- Claim C9 (amended): a record appears in the route breakdown exactly for
the routes whose shipped tons are strictly positive; no epsilon threshold is
applied. -/
theorem flow_rows_iff_positive (routes : List Route) (x : Route → ℚ)
    (c : String → String → ℚ) (row : FlowRow) :
    row ∈ flowRows routes x c ↔
      ∃ r ∈ routes, 0 < x r ∧
        row = { fromLoc := r.1, toLoc := r.2, tons := x r,
                costPerTon := c r.1 r.2, totalCost := x r * c r.1 r.2 } := by
  unfold flowRows
  simp only [List.mem_map, List.mem_filter, decide_eq_true_eq]
  constructor
  · rintro ⟨r, ⟨hr, hpos⟩, rfl⟩
    exact ⟨r, hr, hpos, rfl⟩
  · rintro ⟨r, hr, hpos, rfl⟩
    exact ⟨r, ⟨hr, hpos⟩, rfl⟩

/-! ### Claim C10 -/

/-- Claim C10: every value in the binding-constraint map is the dual value
rounded to two decimal places, the 0.0001 threshold is tested on the
unrounded dual, and a dual with magnitude strictly between 0.0001 and 0.005
therefore appears in the map with reported shadow price 0. -/
theorem shadow_price_rounded_after_threshold (l : List (String × ℚ)) (n : String) (d : ℚ)
    (hmem : (n, d) ∈ l) :
    (∀ entry ∈ shadowPrices l, ∃ p ∈ l, entry.1 = p.1 ∧ entry.2 = round2 p.2 ∧ 1/10000 < |p.2|) ∧
    (1/10000 < |d| → (n, round2 d) ∈ shadowPrices l) ∧
    (1/10000 < |d| → |d| < 1/200 → (n, 0) ∈ shadowPrices l) := by
  refine ⟨?_, ?_, ?_⟩
  · intro entry he
    unfold shadowPrices at he
    simp only [List.mem_map, List.mem_filter, decide_eq_true_eq] at he
    obtain ⟨p, ⟨hp, ht⟩, rfl⟩ := he
    exact ⟨p, hp, rfl, rfl, ht⟩
  · intro ht
    exact mem_shadowPrices_iff.mpr ⟨d, hmem, ht, rfl⟩
  · intro ht hs
    exact mem_shadowPrices_iff.mpr ⟨d, hmem, ht, (round2_eq_zero hs).symm⟩

/-- Claim C10 witness at the dual value 0.003 recorded for Demand_W: above
the threshold, below half of the rounding step, so present with price 0. -/
theorem shadow_price_rounded_after_threshold_witness :
    ("Demand_W", (3 : ℚ)/1000) ∈ [("Demand_W", (3 : ℚ)/1000)] ∧
    ("Demand_W", (0 : ℚ)) ∈ shadowPrices [("Demand_W", (3 : ℚ)/1000)] :=
  ⟨by simp,
    (shadow_price_rounded_after_threshold [("Demand_W", (3 : ℚ)/1000)] "Demand_W" ((3 : ℚ)/1000)
      (by simp)).2.2 (by rw [abs_of_pos] <;> norm_num) (by rw [abs_of_pos] <;> norm_num)⟩

end CaraLogistics
